import Mathlib

/-!
Verification of the TaskManager application (src/app.js) against its
natural-language specification.

The program is a browser task list persisted in an IndexedDB object store
created by `createObjectStore('tasks', { keyPath: 'id', autoIncrement: true })`.
We shallowly embed the object-store state and each `TaskManager` method as a
pure function on that state.  The IndexedDB engine itself is the browser's
storage backend, not code of this repository; we model its documented
semantics where the code relies on them:
 * the `autoIncrement` key generator starts at 1, increases by 1 on every
   successful `add`, and is never reset (keys are not reused after deletes);
 * records are kept ordered by primary key, so `openCursor()` enumerates
   them in ascending `id` order (our `records` list is maintained in that
   order, which `StoreInv` below expresses);
 * `get` on an absent key succeeds with `undefined` (here: `none`);
 * `put` replaces the record with the same key or inserts a new one;
 * `delete` succeeds whether or not the key is present.
Each IndexedDB request in the code installs an `onerror`/`onsuccess`
callback pair; we model the outcome of a request by a `StorageOutcome`
argument, and the callback bodies become the corresponding match branches.
The methods return `undefined` to their callers in JavaScript, so the
caller-visible error channel of every operation (`surfaced`) is empty;
observable side effects (the `displayTasks` re-render, `console.error`
diagnostics, uncaught exceptions) are recorded as an event list.
-/

namespace TaskApp

/-- One record of the `tasks` object store: `id` is the primary key injected
by the store at the `keyPath`, `title` and `description` come from the form. -/
structure Task where
  id : Nat
  title : String
  description : String
deriving DecidableEq, Repr

/-- State of the `tasks` object store: the stored records, maintained in
ascending key order (the order a cursor traversal sees), together with the
current value of the `autoIncrement` key generator. -/
structure StoreState where
  records : List Task
  nextKey : Nat
deriving DecidableEq, Repr

/-- Outcome reported by the IndexedDB engine for one request: either the
`onsuccess` or the `onerror` callback fires. -/
inductive StorageOutcome where
  | ok : StorageOutcome
  | error : String → StorageOutcome
deriving DecidableEq, Repr

/-- Observable side effects of a `TaskManager` method:
`notify` is a `displayTasks()` re-render (the change notification of the
spec), `consoleError` a `console.error` diagnostic, `crash` an uncaught
JavaScript exception escaping a callback. -/
inductive Event where
  | notify : Event
  | consoleError : String → Event
  | crash : String → Event
deriving DecidableEq, Repr

/-- Result of one `TaskManager` method call: the store state afterwards, the
events it emitted (in order), the key assigned by `add` when one was, and the
value the method delivered to its own caller as an error (`surfaced`) — the
JavaScript methods return `undefined`, so this is `none` in every branch. -/
structure OpResult where
  state : StoreState
  events : List Event
  assigned : Option Nat
  surfaced : Option String
deriving DecidableEq, Repr

/-- The store right after first-ever open: `onupgradeneeded` created the
empty `tasks` store; the `autoIncrement` generator starts at 1. -/
def initState : StoreState := { records := [], nextKey := 1 }

/-- `objectStore.add(task)`: the key generator assigns the next key, the
record (with the key injected at the `keyPath`) is appended at the end of the
key order, and the generator advances.  Returns the new state and the key. -/
def storeAdd (s : StoreState) (title description : String) : StoreState × Nat :=
  ({ records := s.records ++ [{ id := s.nextKey, title := title, description := description }],
     nextKey := s.nextKey + 1 }, s.nextKey)

/-- `objectStore.get(id)`: point lookup; absent keys yield `none`
(IndexedDB succeeds with result `undefined`). -/
def storeGet (s : StoreState) (id : Nat) : Option Task :=
  s.records.find? (fun r => r.id == id)

/-- Key-ordered insertion used to model `objectStore.put`: replaces the
record with the same key, otherwise inserts at the key's position. -/
def insertByKey (t : Task) : List Task → List Task
  | [] => [t]
  | r :: rs =>
    if t.id < r.id then t :: r :: rs
    else if t.id = r.id then t :: rs
    else r :: insertByKey t rs

/-- `objectStore.put(task)`: insert-or-replace by primary key. -/
def storePut (s : StoreState) (t : Task) : StoreState :=
  { s with records := insertByKey t s.records }

/-- `objectStore.delete(id)`: removes the record with that key if present;
the request succeeds either way. -/
def storeDelete (s : StoreState) (id : Nat) : StoreState :=
  { s with records := s.records.filter (fun r => r.id != id) }

/-- `displayTasks()`: opens a cursor and walks every record in key order,
rendering each one.  The rendered sequence is the record list itself, since
`records` is kept in cursor (ascending key) order. -/
def displayTasks (s : StoreState) : List Task := s.records

/-- `displayTasks()` with the cursor request's outcome made explicit.  The
code clears the task list (`taskList.innerHTML = ''`, lines 95–96) and then
attaches only an `onsuccess` handler to `openCursor()` (line 100) — there is
no `onerror` handler on this request — so when the engine reports an error
for the cursor request nothing in the program runs: the rendering stays
empty and not even a console diagnostic is emitted.  On success the cursor
walk renders the records in key order (`displayTasks`). -/
def displayTasksRun (s : StoreState) (out : StorageOutcome) :
    List Task × List Event :=
  match out with
  | StorageOutcome.error _ => ([], [])
  | StorageOutcome.ok => (displayTasks s, [])

/-- `initDB()` on a fresh browser profile: `onerror` only logs to the
console (no state, no store); `onsuccess` stores the connection and calls
`displayTasks()` — hence the `notify` event on success.  Models lines 20–54
of src/app.js for the first-ever open, where `onupgradeneeded` creates the
empty `tasks` store. -/
def initDB (out : StorageOutcome) : Option StoreState × List Event :=
  match out with
  | StorageOutcome.error msg => (none, [Event.consoleError msg])
  | StorageOutcome.ok => (some initState, [Event.notify])

/-- `addTask(e)` (lines 65–88): reads `title`/`description` from the form
(here: arguments), issues `objectStore.add`; `onerror` logs to the console,
`onsuccess` resets the form and calls `displayTasks()`.  The method itself
returns `undefined`, so `surfaced` is `none` in both branches. -/
def addTask (s : StoreState) (title description : String)
    (out : StorageOutcome) : OpResult :=
  match out with
  | StorageOutcome.error msg =>
      { state := s, events := [Event.consoleError msg], assigned := none, surfaced := none }
  | StorageOutcome.ok =>
      let p := storeAdd s title description
      { state := p.1, events := [Event.notify], assigned := some p.2, surfaced := none }

/-- `editTask(id)` (lines 128–163): issues `objectStore.get(id)`; on get
error only a console diagnostic.  On get success the code reads
`task.title` for the prompt default — when the id is absent the result is
`undefined` and this access throws an uncaught `TypeError` (the `crash`
event).  The `prompt` replies become the `nt`/`nd` arguments; the code
writes back via `objectStore.put` only when both are truthy (for strings:
non-empty), and only a successful put calls `displayTasks()`. -/
def editTask (s : StoreState) (id : Nat) (getOut : StorageOutcome)
    (nt nd : String) (putOut : StorageOutcome) : OpResult :=
  match getOut with
  | StorageOutcome.error msg =>
      { state := s, events := [Event.consoleError msg], assigned := none, surfaced := none }
  | StorageOutcome.ok =>
      match storeGet s id with
      | none =>
          { state := s,
            events := [Event.crash "TypeError: cannot read properties of undefined"],
            assigned := none, surfaced := none }
      | some task =>
          if nt ≠ "" ∧ nd ≠ "" then
            match putOut with
            | StorageOutcome.error msg =>
                { state := s, events := [Event.consoleError msg],
                  assigned := none, surfaced := none }
            | StorageOutcome.ok =>
                { state := storePut s { task with title := nt, description := nd },
                  events := [Event.notify], assigned := none, surfaced := none }
          else
            { state := s, events := [], assigned := none, surfaced := none }

/-- `deleteTask(id)` (lines 169–187): behind a `confirm` dialog (the
`confirmed` argument); issues `objectStore.delete(id)`; `onerror` logs to
the console, `onsuccess` calls `displayTasks()`.  The engine reports
success even when the key is absent. -/
def deleteTask (s : StoreState) (id : Nat) (confirmed : Bool)
    (out : StorageOutcome) : OpResult :=
  if confirmed then
    match out with
    | StorageOutcome.error msg =>
        { state := s, events := [Event.consoleError msg], assigned := none, surfaced := none }
    | StorageOutcome.ok =>
        { state := storeDelete s id, events := [Event.notify],
          assigned := none, surfaced := none }
  else
    { state := s, events := [], assigned := none, surfaced := none }

/-- One user interaction step, with the storage outcomes it encounters. -/
inductive Step where
  | add : String → String → StorageOutcome → Step
  | edit : Nat → StorageOutcome → String → String → StorageOutcome → Step
  | del : Nat → Bool → StorageOutcome → Step
deriving DecidableEq, Repr

/-- Dispatch one step to the corresponding `TaskManager` method. -/
def stepResult (s : StoreState) : Step → OpResult
  | Step.add t d out => addTask s t d out
  | Step.edit id g nt nd p => editTask s id g nt nd p
  | Step.del id c out => deleteTask s id c out

/-- Run a sequence of interaction steps, threading the store state. -/
def runScript : StoreState → List Step → StoreState
  | s, [] => s
  | s, st :: rest => runScript (stepResult s st).state rest

/-- The keys assigned by the `add` requests of a script, in order. -/
def assignedIds : StoreState → List Step → List Nat
  | _, [] => []
  | s, st :: rest =>
    let r := stepResult s st
    r.assigned.toList ++ assignedIds r.state rest

/-- Store invariant: records are strictly ascending in key (the cursor
order) and every stored key is below the key generator. -/
def StoreInv (s : StoreState) : Prop :=
  s.records.Pairwise (fun a b => a.id < b.id) ∧ ∀ r ∈ s.records, r.id < s.nextKey

instance (s : StoreState) : Decidable (StoreInv s) := by
  unfold StoreInv; infer_instance

/-! ### Helper lemmas about the object-store primitives -/

theorem find?_append_of_none {p : Task → Bool} {l1 l2 : List Task}
    (h : ∀ x ∈ l1, p x = false) :
    List.find? p (l1 ++ l2) = List.find? p l2 := by
  induction l1 with
  | nil => rfl
  | cons a l ih =>
    have ha : p a = false := h a (List.mem_cons_self a l)
    simp only [List.cons_append, List.find?_cons, ha]
    exact ih (fun x hx => h x (List.mem_cons_of_mem a hx))

theorem storeGet_some {s : StoreState} {id : Nat} {task : Task}
    (h : storeGet s id = some task) : task ∈ s.records ∧ task.id = id := by
  refine ⟨List.mem_of_find?_eq_some h, ?_⟩
  have := List.find?_some h
  simpa using this

/-- Looking up the freshly assigned key after `storeAdd` finds the new
record, because every previously stored key is below the key generator. -/
theorem storeGet_storeAdd_self {s : StoreState} (t d : String)
    (h : ∀ r ∈ s.records, r.id < s.nextKey) :
    storeGet (storeAdd s t d).1 s.nextKey
      = some { id := s.nextKey, title := t, description := d } := by
  unfold storeGet storeAdd
  rw [find?_append_of_none]
  · simp
  · intro x hx
    have := h x hx
    simp only [beq_eq_false_iff_ne, ne_eq]
    omega

/-! ### Claim theorems -/

/-- C1: for every pair of strings `(title, description)`, a successful
`addTask` assigns an id, and a point lookup (`objectStore.get`) on that id
returns a record with exactly the created `title`/`description` and the
assigned id.  Stated over any store state satisfying the store invariant
(fresh stores satisfy it, and every operation preserves it). -/
theorem addTask_get_roundtrip (s : StoreState) (t d : String) (h : StoreInv s) :
    ∃ i, (addTask s t d StorageOutcome.ok).assigned = some i ∧
      storeGet (addTask s t d StorageOutcome.ok).state i
        = some { id := i, title := t, description := d } := by
  refine ⟨s.nextKey, rfl, ?_⟩
  exact storeGet_storeAdd_self t d h.2

/-- Witness for C1 at the fresh store and `("Buy milk", "2 liters")`. -/
theorem addTask_get_roundtrip_witness :
    StoreInv initState ∧
    ∃ i, (addTask initState "Buy milk" "2 liters" StorageOutcome.ok).assigned = some i ∧
      storeGet (addTask initState "Buy milk" "2 liters" StorageOutcome.ok).state i
        = some { id := i, title := "Buy milk", description := "2 liters" } :=
  ⟨by decide, addTask_get_roundtrip initState "Buy milk" "2 liters" (by decide)⟩

/-- The key generator never decreases, whatever the step or its outcome. -/
theorem stepResult_nextKey_le (s : StoreState) (st : Step) :
    s.nextKey ≤ (stepResult s st).state.nextKey := by
  cases st with
  | add t d out =>
    cases out <;> simp [stepResult, addTask, storeAdd]
  | edit id g nt nd p =>
    cases g with
    | error msg => simp [stepResult, editTask]
    | ok =>
      cases hg : storeGet s id with
      | none => simp [stepResult, editTask, hg]
      | some task =>
        by_cases hc : nt ≠ "" ∧ nd ≠ ""
        · cases p <;> simp [stepResult, editTask, hg, hc, storePut]
        · simp [stepResult, editTask, hg, hc]
  | del id c out =>
    cases c <;> cases out <;> simp [stepResult, deleteTask, storeDelete]

/-- The only step that assigns a key is a successful `add`; the key it
assigns is the generator's current value, and the generator then advances. -/
theorem stepResult_assigned {s : StoreState} {st : Step} {i : Nat}
    (h : (stepResult s st).assigned = some i) :
    i = s.nextKey ∧ (stepResult s st).state.nextKey = s.nextKey + 1 := by
  cases st with
  | add t d out =>
    cases out with
    | ok =>
      simp [stepResult, addTask, storeAdd] at h ⊢
      omega
    | error msg => simp [stepResult, addTask] at h
  | edit id g nt nd p =>
    cases g with
    | error msg => simp [stepResult, editTask] at h
    | ok =>
      cases hg : storeGet s id with
      | none => simp [stepResult, editTask, hg] at h
      | some task =>
        by_cases hc : nt ≠ "" ∧ nd ≠ ""
        · cases p <;> simp [stepResult, editTask, hg, hc] at h
        · simp [stepResult, editTask, hg, hc] at h
  | del id c out =>
    cases c <;> cases out <;> simp [stepResult, deleteTask] at h

/-- Every key assigned during a script is at least the generator's value at
the script's start. -/
theorem assignedIds_lower {sc : List Step} :
    ∀ {s : StoreState} {i : Nat}, i ∈ assignedIds s sc → s.nextKey ≤ i := by
  induction sc with
  | nil => intro s i h; simp [assignedIds] at h
  | cons st rest ih =>
    intro s i h
    simp only [assignedIds, List.mem_append] at h
    rcases h with h | h
    · cases ha : (stepResult s st).assigned with
      | none => simp [ha] at h
      | some j =>
        simp [ha] at h
        subst h
        exact (stepResult_assigned ha).1.ge
    · have h1 := ih h
      have h2 := stepResult_nextKey_le s st
      omega

/-- C2: across any interaction script started on a fresh store, the ids
assigned by the successful creates form a strictly increasing sequence, so
they are pairwise distinct and never reused — even when the script deletes
records in between (the key generator is never rewound). -/
theorem assignedIds_strictMono (sc : List Step) :
    List.Pairwise (· < ·) (assignedIds initState sc) := by
  suffices h : ∀ s : StoreState, List.Pairwise (· < ·) (assignedIds s sc) from h initState
  induction sc with
  | nil => intro s; simp [assignedIds]
  | cons st rest ih =>
    intro s
    simp only [assignedIds]
    cases ha : (stepResult s st).assigned with
    | none => simpa using ih (stepResult s st).state
    | some j =>
      obtain ⟨hj, hk⟩ := stepResult_assigned ha
      simp only [Option.toList_some, List.singleton_append, List.pairwise_cons]
      refine ⟨fun i hi => ?_, ih (stepResult s st).state⟩
      have := assignedIds_lower hi
      omega

theorem mem_insertByKey {x t : Task} {l : List Task}
    (h : x ∈ insertByKey t l) : x = t ∨ x ∈ l := by
  induction l with
  | nil => simpa [insertByKey] using h
  | cons r rs ih =>
    by_cases h1 : t.id < r.id
    · simp only [insertByKey, if_pos h1, List.mem_cons] at h
      rcases h with h | h | h
      · exact Or.inl h
      · exact Or.inr (by simp [h])
      · exact Or.inr (List.mem_cons_of_mem r h)
    · by_cases h2 : t.id = r.id
      · simp only [insertByKey, if_neg h1, if_pos h2, List.mem_cons] at h
        rcases h with h | h
        · exact Or.inl h
        · exact Or.inr (List.mem_cons_of_mem r h)
      · simp only [insertByKey, if_neg h1, if_neg h2, List.mem_cons] at h
        rcases h with h | h
        · exact Or.inr (by simp [h])
        · rcases ih h with h | h
          · exact Or.inl h
          · exact Or.inr (List.mem_cons_of_mem r h)

theorem pairwise_insertByKey {t : Task} {l : List Task}
    (h : l.Pairwise (fun a b => a.id < b.id)) :
    (insertByKey t l).Pairwise (fun a b => a.id < b.id) := by
  induction l with
  | nil => simp [insertByKey]
  | cons r rs ih =>
    rw [List.pairwise_cons] at h
    obtain ⟨hr, hrs⟩ := h
    by_cases h1 : t.id < r.id
    · simp only [insertByKey, if_pos h1, List.pairwise_cons, List.mem_cons]
      refine ⟨?_, hr, hrs⟩
      rintro b (rfl | hb)
      · exact h1
      · exact h1.trans (hr b hb)
    · by_cases h2 : t.id = r.id
      · simp only [insertByKey, if_neg h1, if_pos h2, List.pairwise_cons]
        exact ⟨fun b hb => h2 ▸ hr b hb, hrs⟩
      · have h3 : r.id < t.id := by omega
        simp only [insertByKey, if_neg h1, if_neg h2, List.pairwise_cons]
        refine ⟨fun b hb => ?_, ih hrs⟩
        rcases mem_insertByKey hb with rfl | hb
        · exact h3
        · exact hr b hb

/-- Looking up the key of a just-`put` record finds exactly that record. -/
theorem insertByKey_find?_self (t : Task) (l : List Task) :
    List.find? (fun r => r.id == t.id) (insertByKey t l) = some t := by
  induction l with
  | nil => simp [insertByKey]
  | cons r rs ih =>
    by_cases h1 : t.id < r.id
    · simp [insertByKey, if_pos h1]
    · by_cases h2 : t.id = r.id
      · simp [insertByKey, if_neg h1, if_pos h2]
      · have hne : (r.id == t.id) = false := by
          simp only [beq_eq_false_iff_ne, ne_eq]
          omega
        simp [insertByKey, if_neg h1, if_neg h2, List.find?_cons, hne, ih]

/-- A `put` leaves point lookups of every other key unchanged. -/
theorem insertByKey_find?_other (t : Task) (j : Nat) (hj : j ≠ t.id)
    (l : List Task) :
    List.find? (fun r => r.id == j) (insertByKey t l)
      = List.find? (fun r => r.id == j) l := by
  have ht : (t.id == j) = false := by
    simp only [beq_eq_false_iff_ne, ne_eq]
    omega
  induction l with
  | nil => simp [insertByKey, ht]
  | cons r rs ih =>
    by_cases h1 : t.id < r.id
    · simp [insertByKey, if_pos h1, List.find?_cons, ht]
    · by_cases h2 : t.id = r.id
      · have hr : (r.id == j) = false := by
          simp only [beq_eq_false_iff_ne, ne_eq]
          omega
        simp [insertByKey, if_neg h1, if_pos h2, List.find?_cons, ht, hr]
      · cases hr : (r.id == j) with
        | true => simp [insertByKey, if_neg h1, if_neg h2, List.find?_cons, hr]
        | false => simp [insertByKey, if_neg h1, if_neg h2, List.find?_cons, hr, ih]

/-- A `put` whose key is already present preserves the key sequence. -/
theorem insertByKey_map_id {t : Task} {l : List Task}
    (hs : l.Pairwise (fun a b => a.id < b.id))
    (hm : t.id ∈ l.map Task.id) :
    (insertByKey t l).map Task.id = l.map Task.id := by
  induction l with
  | nil => simp at hm
  | cons r rs ih =>
    rw [List.pairwise_cons] at hs
    obtain ⟨hr, hrs⟩ := hs
    simp only [List.map_cons, List.mem_cons] at hm
    by_cases h1 : t.id < r.id
    · exfalso
      rcases hm with hm | hm
      · omega
      · obtain ⟨b, hb, hbid⟩ := List.mem_map.mp hm
        have := hr b hb
        omega
    · by_cases h2 : t.id = r.id
      · simp [insertByKey, if_neg h1, if_pos h2, h2]
      · have hm2 : t.id ∈ rs.map Task.id := by
          rcases hm with hm | hm
          · omega
          · exact hm
        simp [insertByKey, if_neg h1, if_neg h2, ih hrs hm2]

/-- The invariant survives a `storeAdd`. -/
theorem storeAdd_inv {s : StoreState} (t d : String) (h : StoreInv s) :
    StoreInv (storeAdd s t d).1 := by
  obtain ⟨hsort, hbound⟩ := h
  constructor
  · show (s.records ++ [Task.mk s.nextKey t d]).Pairwise (fun a b => a.id < b.id)
    rw [List.pairwise_append]
    refine ⟨hsort, by simp, ?_⟩
    intro a ha b hb
    simp only [List.mem_singleton] at hb
    subst hb
    exact hbound a ha
  · intro r hr
    show r.id < s.nextKey + 1
    rcases List.mem_append.mp hr with hr | hr
    · have := hbound r hr
      omega
    · simp only [List.mem_singleton] at hr
      subst hr
      exact Nat.lt_succ_self s.nextKey

/-- The invariant survives a `storePut` of a record whose key is already
below the generator. -/
theorem storePut_inv {s : StoreState} {t : Task} (ht : t.id < s.nextKey)
    (h : StoreInv s) : StoreInv (storePut s t) := by
  obtain ⟨hsort, hbound⟩ := h
  constructor
  · exact pairwise_insertByKey hsort
  · intro r hr
    rcases mem_insertByKey hr with rfl | hr
    · exact ht
    · exact hbound r hr

/-- The invariant survives a `storeDelete`. -/
theorem storeDelete_inv {s : StoreState} (id : Nat) (h : StoreInv s) :
    StoreInv (storeDelete s id) := by
  obtain ⟨hsort, hbound⟩ := h
  constructor
  · exact hsort.filter _
  · intro r hr
    exact hbound r (List.mem_filter.mp hr).1

/-- Every `TaskManager` method preserves the store invariant. -/
theorem stepResult_inv {s : StoreState} (st : Step) (h : StoreInv s) :
    StoreInv (stepResult s st).state := by
  cases st with
  | add t d out =>
    cases out with
    | error msg => exact h
    | ok => exact storeAdd_inv t d h
  | edit id g nt nd p =>
    cases g with
    | error msg => exact h
    | ok =>
      cases hg : storeGet s id with
      | none => simpa [stepResult, editTask, hg] using h
      | some task =>
        by_cases hc : nt ≠ "" ∧ nd ≠ ""
        · cases p with
          | error msg => simpa [stepResult, editTask, hg, hc] using h
          | ok =>
            obtain ⟨hmem, hid⟩ := storeGet_some hg
            have hstate : (stepResult s (Step.edit id StorageOutcome.ok nt nd
                StorageOutcome.ok)).state
                = storePut s { task with title := nt, description := nd } := by
              simp [stepResult, editTask, hg, hc]
            rw [hstate]
            exact storePut_inv (h.2 task hmem) h
        · simpa [stepResult, editTask, hg, hc] using h
  | del id c out =>
    cases c with
    | false => exact h
    | true =>
      cases out with
      | error msg => exact h
      | ok => exact storeDelete_inv id h

/-- Running any script from an invariant state lands in an invariant state. -/
theorem runScript_inv (sc : List Step) :
    ∀ s : StoreState, StoreInv s → StoreInv (runScript s sc) := by
  induction sc with
  | nil => intro s h; exact h
  | cons st rest ih =>
    intro s h
    exact ih (stepResult s st).state (stepResult_inv st h)

/-- C10: in every store state the program can reach, the cursor traversal of
`displayTasks` enumerates the records in strictly ascending primary-key
order.  Since `displayTasks` is a pure function of the state, two traversals
of the same unchanged state produce the same sequence. -/
theorem displayTasks_sorted_by_id (sc : List Step) :
    (displayTasks (runScript initState sc)).Pairwise (fun a b => a.id < b.id) :=
  (runScript_inv sc initState (by decide)).1

/-- The records that `N` successful creates are expected to produce when the
key generator starts at `k`: each input pair with its assigned key, in
creation order. -/
def createdRecords (k : Nat) : List (String × String) → List Task
  | [] => []
  | (t, d) :: ps => { id := k, title := t, description := d } :: createdRecords (k + 1) ps

/-- A script consisting of one successful `addTask` per input pair. -/
def addScript (ps : List (String × String)) : List Step :=
  ps.map (fun p => Step.add p.1 p.2 StorageOutcome.ok)

theorem createdRecords_length (k : Nat) (ps : List (String × String)) :
    (createdRecords k ps).length = ps.length := by
  induction ps generalizing k with
  | nil => rfl
  | cons p ps ih =>
    obtain ⟨t, d⟩ := p
    simp [createdRecords, ih]

theorem runScript_addScript (ps : List (String × String)) :
    ∀ s : StoreState, (runScript s (addScript ps)).records
      = s.records ++ createdRecords s.nextKey ps := by
  induction ps with
  | nil => intro s; simp [addScript, runScript, createdRecords]
  | cons p ps ih =>
    intro s
    obtain ⟨t, d⟩ := p
    simp only [addScript, List.map_cons, runScript, stepResult, addTask, storeAdd,
      createdRecords]
    rw [show (List.map (fun p => Step.add p.1 p.2 StorageOutcome.ok) ps) = addScript ps
      from rfl, ih]
    simp

/-- C4: starting from a fresh store, `N` successful creates followed by a
`displayTasks` traversal render exactly the `N` created records — same
length and literally the same records (ids `1..N` with the created
`title`/`description` pairs), which implies the spec's order-insensitive
set equality. -/
theorem displayTasks_after_creates (ps : List (String × String)) :
    displayTasks (runScript initState (addScript ps)) = createdRecords 1 ps ∧
    (displayTasks (runScript initState (addScript ps))).length = ps.length := by
  have h : displayTasks (runScript initState (addScript ps)) = createdRecords 1 ps := by
    show (runScript initState (addScript ps)).records = createdRecords 1 ps
    rw [runScript_addScript ps initState]
    rfl
  exact ⟨h, by rw [h, createdRecords_length]⟩

/-- C5: a confirmed, successful `deleteTask` of a present id makes a
subsequent `objectStore.get` of that id return no record, and no record with
that id appears in any subsequent `displayTasks` traversal. -/
theorem deleteTask_then_get_none (s : StoreState) (id : Nat) (task : Task)
    (h : storeGet s id = some task) :
    storeGet (deleteTask s id true StorageOutcome.ok).state id = none ∧
    ∀ r ∈ displayTasks (deleteTask s id true StorageOutcome.ok).state, r.id ≠ id := by
  constructor
  · show List.find? (fun r => r.id == id) (s.records.filter (fun r => r.id != id)) = none
    rw [List.find?_eq_none]
    intro x hx
    have := (List.mem_filter.mp hx).2
    simpa using this
  · intro r hr
    have := (List.mem_filter.mp hr).2
    simpa using this

/-- Witness for C5: create one task in a fresh store, then delete it. -/
theorem deleteTask_then_get_none_witness :
    storeGet (addTask initState "Buy milk" "2 liters" StorageOutcome.ok).state 1
      = some { id := 1, title := "Buy milk", description := "2 liters" } ∧
    (storeGet (deleteTask (addTask initState "Buy milk" "2 liters"
        StorageOutcome.ok).state 1 true StorageOutcome.ok).state 1 = none ∧
      ∀ r ∈ displayTasks (deleteTask (addTask initState "Buy milk" "2 liters"
        StorageOutcome.ok).state 1 true StorageOutcome.ok).state, r.id ≠ 1) :=
  ⟨by decide,
    deleteTask_then_get_none (addTask initState "Buy milk" "2 liters"
      StorageOutcome.ok).state 1
      { id := 1, title := "Buy milk", description := "2 liters" } (by decide)⟩

/-- C7: each successful mutation — a create, an update that actually writes
(existing id, both replacement values non-empty), or a confirmed delete —
emits exactly one change notification (`displayTasks` re-render), and it is
emitted within that same operation's success completion (the event list of
the very call), so no successful mutation is unobserved or notified twice. -/
theorem mutation_notifies_once (s : StoreState) (t d nt nd : String)
    (id jd : Nat) (task : Task) (hget : storeGet s jd = some task)
    (hnt : nt ≠ "") (hnd : nd ≠ "") :
    (addTask s t d StorageOutcome.ok).events.count Event.notify = 1 ∧
    (editTask s jd StorageOutcome.ok nt nd StorageOutcome.ok).events.count
      Event.notify = 1 ∧
    (deleteTask s id true StorageOutcome.ok).events.count Event.notify = 1 := by
  refine ⟨rfl, ?_, rfl⟩
  simp [editTask, hget, hnt, hnd]

/-- Witness for C7 on a one-record store. -/
theorem mutation_notifies_once_witness :
    (storeGet (addTask initState "a" "b" StorageOutcome.ok).state 1
        = some { id := 1, title := "a", description := "b" } ∧
      ("c" : String) ≠ "" ∧ ("d" : String) ≠ "") ∧
    ((addTask (addTask initState "a" "b" StorageOutcome.ok).state "x" "y"
        StorageOutcome.ok).events.count Event.notify = 1 ∧
      (editTask (addTask initState "a" "b" StorageOutcome.ok).state 1
        StorageOutcome.ok "c" "d" StorageOutcome.ok).events.count Event.notify = 1 ∧
      (deleteTask (addTask initState "a" "b" StorageOutcome.ok).state 2 true
        StorageOutcome.ok).events.count Event.notify = 1) :=
  ⟨⟨by decide, by decide, by decide⟩,
    mutation_notifies_once (addTask initState "a" "b" StorageOutcome.ok).state
      "x" "y" "c" "d" 2 1 { id := 1, title := "a", description := "b" }
      (by decide) (by decide) (by decide)⟩

/-- C9: when the target id exists but either replacement value is empty
(falsy in JavaScript, e.g. an empty `prompt` reply or a cancelled dialog),
`editTask` issues no write: the store state is exactly the original and no
event — in particular no change notification — is emitted. -/
theorem editTask_falsy_no_write (s : StoreState) (id : Nat) (task : Task)
    (nt nd : String) (putOut : StorageOutcome)
    (hget : storeGet s id = some task) (h : nt = "" ∨ nd = "") :
    editTask s id StorageOutcome.ok nt nd putOut
      = { state := s, events := [], assigned := none, surfaced := none } := by
  have hc : ¬(nt ≠ "" ∧ nd ≠ "") := by
    rcases h with h | h <;> simp [h]
  simp [editTask, hget, hc]

/-- Witness for C9: empty new title on a one-record store. -/
theorem editTask_falsy_no_write_witness :
    (storeGet (addTask initState "a" "b" StorageOutcome.ok).state 1
        = some { id := 1, title := "a", description := "b" } ∧
      (("" : String) = "" ∨ ("x" : String) = "")) ∧
    editTask (addTask initState "a" "b" StorageOutcome.ok).state 1
        StorageOutcome.ok "" "x" StorageOutcome.ok
      = { state := (addTask initState "a" "b" StorageOutcome.ok).state,
          events := [], assigned := none, surfaced := none } :=
  ⟨⟨by decide, Or.inl rfl⟩,
    editTask_falsy_no_write (addTask initState "a" "b" StorageOutcome.ok).state 1
      { id := 1, title := "a", description := "b" } "" "x" StorageOutcome.ok
      (by decide) (Or.inl rfl)⟩

/-- C3 counterexample: the claim quantifies over every pair of new strings,
but `editTask` guards the write with JavaScript truthiness of both values.
On a store holding record 1 = `("a", "b")`, an edit supplying the pair
`("", "x")` is dropped: the subsequent lookup still returns the old values,
not `("", "x")` as the claim requires. -/
theorem editTask_empty_string_counterexample :
    ¬ storeGet (editTask (addTask initState "a" "b" StorageOutcome.ok).state 1
        StorageOutcome.ok "" "x" StorageOutcome.ok).state 1
      = some { id := 1, title := "", description := "x" } := by decide

/-- C3 (amended: for non-empty replacement strings): a successful
`editTask` of an existing id replaces exactly that record's
`title`/`description`: the looked-up record keeps the target id with the new
values, every other id's point lookup is unchanged, and the key sequence of
the collection is unchanged (no record added, removed, or re-keyed). -/
theorem editTask_updates_only_target (s : StoreState) (id : Nat) (task : Task)
    (nt nd : String) (hinv : StoreInv s) (hget : storeGet s id = some task)
    (hnt : nt ≠ "") (hnd : nd ≠ "") :
    storeGet (editTask s id StorageOutcome.ok nt nd StorageOutcome.ok).state id
      = some { id := id, title := nt, description := nd } ∧
    (∀ j, j ≠ id →
      storeGet (editTask s id StorageOutcome.ok nt nd StorageOutcome.ok).state j
        = storeGet s j) ∧
    (editTask s id StorageOutcome.ok nt nd StorageOutcome.ok).state.records.map
        Task.id = s.records.map Task.id := by
  obtain ⟨hmem, hid⟩ := storeGet_some hget
  have hstate : (editTask s id StorageOutcome.ok nt nd StorageOutcome.ok).state
      = storePut s { task with title := nt, description := nd } := by
    simp [editTask, hget, hnt, hnd]
  have hput : ({ task with title := nt, description := nd } : Task)
      = { id := id, title := nt, description := nd } := by
    cases task
    simp_all
  rw [hstate, hput]
  refine ⟨?_, ?_, ?_⟩
  · exact insertByKey_find?_self { id := id, title := nt, description := nd } s.records
  · intro j hj
    exact insertByKey_find?_other _ j hj s.records
  · refine insertByKey_map_id hinv.1 ?_
    show id ∈ s.records.map Task.id
    exact List.mem_map.mpr ⟨task, hmem, hid⟩

/-- Witness for the amended C3 on a two-record store: edit record 1 to
`("c", "d")`; record 2 is untouched. -/
theorem editTask_updates_only_target_witness :
    (StoreInv (runScript initState (addScript [("a", "b"), ("x", "y")])) ∧
      storeGet (runScript initState (addScript [("a", "b"), ("x", "y")])) 1
        = some { id := 1, title := "a", description := "b" } ∧
      ("c" : String) ≠ "" ∧ ("d" : String) ≠ "") ∧
    (storeGet (editTask (runScript initState (addScript [("a", "b"), ("x", "y")]))
        1 StorageOutcome.ok "c" "d" StorageOutcome.ok).state 1
      = some { id := 1, title := "c", description := "d" } ∧
    (∀ j, j ≠ 1 →
      storeGet (editTask (runScript initState (addScript [("a", "b"), ("x", "y")]))
        1 StorageOutcome.ok "c" "d" StorageOutcome.ok).state j
        = storeGet (runScript initState (addScript [("a", "b"), ("x", "y")])) j) ∧
    (editTask (runScript initState (addScript [("a", "b"), ("x", "y")]))
        1 StorageOutcome.ok "c" "d" StorageOutcome.ok).state.records.map Task.id
      = (runScript initState (addScript [("a", "b"), ("x", "y")])).records.map
          Task.id) :=
  ⟨⟨by decide, by decide, by decide, by decide⟩,
    editTask_updates_only_target
      (runScript initState (addScript [("a", "b"), ("x", "y")])) 1
      { id := 1, title := "a", description := "b" } "c" "d"
      (by decide) (by decide) (by decide) (by decide)⟩

/-- C6 counterexample: on a fresh (empty) store, id 5 is absent, yet a
confirmed `deleteTask 5` reports success exactly like a real delete — one
change notification, a console-free event list, nothing surfaced to the
caller — and `editTask 5` does not fail with a NotFound-class error but
throws an uncaught TypeError (a crash), while the bare `objectStore.get`
succeeds with no record rather than erroring. -/
theorem missing_id_not_notfound_counterexample :
    storeGet initState 5 = none ∧
    (deleteTask initState 5 true StorageOutcome.ok).events = [Event.notify] ∧
    (deleteTask initState 5 true StorageOutcome.ok).surfaced = none ∧
    (editTask initState 5 StorageOutcome.ok "a" "b" StorageOutcome.ok).events
      = [Event.crash "TypeError: cannot read properties of undefined"] := by
  decide

/-- C6 (amended to the code's actual behavior): on a non-existent id,
`objectStore.get` succeeds with no record (`undefined`) rather than a
NotFound error; `editTask` crashes with an uncaught TypeError (reading
`task.title` of `undefined`) and performs no write; and a confirmed
`deleteTask` silently succeeds — collection unchanged, one change
notification, nothing surfaced — indistinguishable from a real delete. -/
theorem missing_id_behavior (s : StoreState) (id : Nat) (nt nd : String)
    (h : storeGet s id = none) :
    (editTask s id StorageOutcome.ok nt nd StorageOutcome.ok).events
      = [Event.crash "TypeError: cannot read properties of undefined"] ∧
    (editTask s id StorageOutcome.ok nt nd StorageOutcome.ok).state = s ∧
    (deleteTask s id true StorageOutcome.ok).events = [Event.notify] ∧
    (deleteTask s id true StorageOutcome.ok).surfaced = none ∧
    (deleteTask s id true StorageOutcome.ok).state.records = s.records := by
  refine ⟨by simp [editTask, h], by simp [editTask, h], rfl, rfl, ?_⟩
  show s.records.filter (fun r => r.id != id) = s.records
  rw [List.filter_eq_self]
  intro x hx
  have := List.find?_eq_none.mp h x hx
  simpa using this

/-- Witness for the amended C6 at the fresh store and id 5. -/
theorem missing_id_behavior_witness :
    storeGet initState 5 = none ∧
    ((editTask initState 5 StorageOutcome.ok "a" "b" StorageOutcome.ok).events
      = [Event.crash "TypeError: cannot read properties of undefined"] ∧
    (editTask initState 5 StorageOutcome.ok "a" "b" StorageOutcome.ok).state
      = initState ∧
    (deleteTask initState 5 true StorageOutcome.ok).events = [Event.notify] ∧
    (deleteTask initState 5 true StorageOutcome.ok).surfaced = none ∧
    (deleteTask initState 5 true StorageOutcome.ok).state.records
      = initState.records) :=
  ⟨by decide, missing_id_behavior initState 5 "a" "b" (by decide)⟩

/-- C8 counterexample: when the engine reports an error for the `add`
request, the caller of `addTask` receives nothing observable — the method
surfaces no error value; the only trace is a console diagnostic.  For the
`list` traversal it is worse still: the cursor request carries no `onerror`
handler, so an engine error there produces no diagnostic and no caller-
observable result at all — the rendering is simply left empty. -/
theorem error_not_surfaced_counterexample :
    (addTask initState "a" "b" (StorageOutcome.error "boom")).surfaced = none ∧
    (addTask initState "a" "b" (StorageOutcome.error "boom")).events
      = [Event.consoleError "boom"] ∧
    displayTasksRun (addTask initState "a" "b" StorageOutcome.ok).state
      (StorageOutcome.error "boom") = ([], []) := by decide

/-- C8 (amended to the code's actual behavior): no operation retries, and no
operation surfaces a storage error to its immediate caller (every method
returns `undefined`).  For open, create, both of update's requests (the
`get` and the `put`), and delete, the failing request's `onerror` handler
logs exactly one `console.error` diagnostic and the state is unchanged.
The `list` traversal (`displayTasks`) attaches no `onerror` handler to its
cursor request at all, so a storage error there is not even logged: the
rendering is left empty and the error vanishes without any trace in the
program. -/
theorem storage_error_console_only (s : StoreState) (task : Task)
    (t d nt nd msg : String) (id : Nat)
    (hget : storeGet s id = some task) (hnt : nt ≠ "") (hnd : nd ≠ "") :
    initDB (StorageOutcome.error msg) = (none, [Event.consoleError msg]) ∧
    addTask s t d (StorageOutcome.error msg)
      = { state := s, events := [Event.consoleError msg],
          assigned := none, surfaced := none } ∧
    editTask s id (StorageOutcome.error msg) nt nd StorageOutcome.ok
      = { state := s, events := [Event.consoleError msg],
          assigned := none, surfaced := none } ∧
    editTask s id StorageOutcome.ok nt nd (StorageOutcome.error msg)
      = { state := s, events := [Event.consoleError msg],
          assigned := none, surfaced := none } ∧
    deleteTask s id true (StorageOutcome.error msg)
      = { state := s, events := [Event.consoleError msg],
          assigned := none, surfaced := none } ∧
    displayTasksRun s (StorageOutcome.error msg) = ([], []) := by
  refine ⟨rfl, rfl, rfl, ?_, rfl, rfl⟩
  simp [editTask, hget, hnt, hnd]

/-- Witness for the amended C8 on a one-record store: error on each request
of each operation, including update's put request and the list cursor. -/
theorem storage_error_console_only_witness :
    (storeGet (addTask initState "a" "b" StorageOutcome.ok).state 1
        = some { id := 1, title := "a", description := "b" } ∧
      ("c" : String) ≠ "" ∧ ("d" : String) ≠ "") ∧
    (initDB (StorageOutcome.error "boom") = (none, [Event.consoleError "boom"]) ∧
    addTask (addTask initState "a" "b" StorageOutcome.ok).state "x" "y"
        (StorageOutcome.error "boom")
      = { state := (addTask initState "a" "b" StorageOutcome.ok).state,
          events := [Event.consoleError "boom"],
          assigned := none, surfaced := none } ∧
    editTask (addTask initState "a" "b" StorageOutcome.ok).state 1
        (StorageOutcome.error "boom") "c" "d" StorageOutcome.ok
      = { state := (addTask initState "a" "b" StorageOutcome.ok).state,
          events := [Event.consoleError "boom"],
          assigned := none, surfaced := none } ∧
    editTask (addTask initState "a" "b" StorageOutcome.ok).state 1
        StorageOutcome.ok "c" "d" (StorageOutcome.error "boom")
      = { state := (addTask initState "a" "b" StorageOutcome.ok).state,
          events := [Event.consoleError "boom"],
          assigned := none, surfaced := none } ∧
    deleteTask (addTask initState "a" "b" StorageOutcome.ok).state 1 true
        (StorageOutcome.error "boom")
      = { state := (addTask initState "a" "b" StorageOutcome.ok).state,
          events := [Event.consoleError "boom"],
          assigned := none, surfaced := none } ∧
    displayTasksRun (addTask initState "a" "b" StorageOutcome.ok).state
        (StorageOutcome.error "boom") = ([], [])) :=
  ⟨⟨by decide, by decide, by decide⟩,
    storage_error_console_only (addTask initState "a" "b" StorageOutcome.ok).state
      { id := 1, title := "a", description := "b" } "x" "y" "c" "d" "boom" 1
      (by decide) (by decide) (by decide)⟩

end TaskApp
